import Mathlib

/-!
Verification development for the openclaw-agent-dashboard telemetry
aggregation layer.

The definitions below are shallow embeddings of the TypeScript source:

* `src/app/api/status/route.ts` — `runCLI`, `parseHealth`, `deriveHealth`,
  `buildStatus` (embedded as `statusBuildStatus`), and the cached `GET`
  handler (embedded as `statusGET`).
* the status-route variant embedded in `src/app/api/daily/route.ts`
  (second file of that blob) — `parseChannelSummary` and its `buildStatus`
  (embedded as `dailyBuildStatus`).
* `src/app/api/activity/route.ts` — `execJSON`, `getSessionActivity`
  (embedded as `normalizeActivity` over explicit inputs) and the query
  `GET` handler (embedded as `activityGET`).
* `src/unnamed/part_002` — the cron-job mapping of `buildSystemData`
  (embedded as `mapCronJob`).
* `src/unnamed/part_003` — `redact`.

Modelling conventions, applied uniformly:

* JavaScript strings are `String`; lowercasing is modelled on ASCII
  letters (every pattern the source matches against is ASCII).
* Timestamps are epoch milliseconds (`Nat`).  The source converts between
  millisecond numbers and ISO strings with `new Date(...)`; that round
  trip is the identity on the millisecond value, so entries carry the
  millisecond value directly.
* `JSON.parse` is modelled by `jsonParseList`, a fuel-indexed recursive
  descent over the JSON grammar; the fuel given by `jsonParseList` is
  always sufficient for the inputs evaluated in this file, and theorems
  never depend on the cutoff.  Numeric literals are kept as lexemes
  (IEEE-754 value semantics of the host language are out of scope, no
  claim touches them).  Duplicate object keys are kept in order.
* External effects (process spawning, `os.*` metrics, wall-clock ISO
  strings attached to responses) are inputs of the model or omitted when
  no claim mentions them.
-/

/-! ## Basic character and string helpers (JS semantics on ASCII) -/

def lbraceChar : Char := Char.ofNat 123

def rbraceChar : Char := Char.ofNat 125

def lbrackChar : Char := Char.ofNat 91

def rbrackChar : Char := Char.ofNat 93

def quoteChar : Char := Char.ofNat 34

def backslashChar : Char := Char.ofNat 92

/-- ASCII lowercasing of one character, the effect of JS
`String.prototype.toLowerCase` on the ASCII inputs used by the source. -/
def lowerChar (c : Char) : Char :=
  if 'A' ≤ c ∧ c ≤ 'Z' then Char.ofNat (c.toNat + 32) else c

/-- ASCII model of JS `toLowerCase`. -/
def lowerStr (s : String) : String := String.mk (s.toList.map lowerChar)

/-- JS whitespace test used by `String.prototype.trim`. -/
def isJsSpace (c : Char) : Bool := c.isWhitespace

/-- JS `String.prototype.trim` on the character list. -/
def jsTrimList (cs : List Char) : List Char :=
  ((cs.dropWhile isJsSpace).reverse.dropWhile isJsSpace).reverse

/-- JS `String.prototype.trim`. -/
def jsTrim (s : String) : String := String.mk (jsTrimList s.toList)

/-- Does `hay` contain `pat` as a contiguous substring?  Model of JS
`String.prototype.includes` / a fixed-literal regex test. -/
def containsAux (pat : List Char) : List Char → Bool
  | [] => pat.isEmpty
  | c :: rest => pat.isPrefixOf (c :: rest) || containsAux pat rest

def strContains (hay pat : String) : Bool := containsAux pat.toList hay.toList

/-- Case-insensitive containment, the effect of a `/i` regex with a plain
alternative of lowercase literals. -/
def strContainsCI (hay pat : String) : Bool :=
  containsAux pat.toList (hay.toList.map lowerChar)

/-- JS `String.prototype.split` with a non-empty string separator:
`splitSepAux sep fuel cs acc` scans `cs`, cutting at each occurrence of
`sep`.  The fuel is one more than the length of the scanned list, which
every call site supplies, so the `0` case is never reached there. -/
def splitSepAux (sep : List Char) : Nat → List Char → List Char → List (List Char)
  | _, [], acc => [acc.reverse]
  | 0, cs, acc => [acc.reverse ++ cs]
  | fuel + 1, c :: rest, acc =>
    if !sep.isEmpty && sep.isPrefixOf (c :: rest) then
      acc.reverse :: splitSepAux sep fuel (rest.drop (sep.length - 1)) []
    else
      splitSepAux sep fuel rest (c :: acc)

/-- JS `s.split(sep)` for a non-empty separator. -/
def jsSplit (s sep : String) : List String :=
  (splitSepAux sep.toList (s.toList.length + 1) s.toList []).map String.mk

/-! ## The JSON value tree (`RawSnapshot` of the spec) -/

/-- Loosely-typed JSON tree produced by `JSON.parse` in the source.
Numbers are kept as their lexemes (see the header comment). -/
inductive JValue where
  | null
  | bool (b : Bool)
  | num (lexeme : String)
  | str (s : String)
  | arr (elems : List JValue)
  | obj (fields : List (String × JValue))

/-! ## `redact` from `src/unnamed/part_003` -/

/-- The redaction marker literal of the source. -/
def redactedMarker : String := "[REDACTED]"

/-- `/token|secret|key|password|auth|bearer|credential|apikey/i.test(k)` —
the key test of `redact`. -/
def sensitiveKeyTest (k : String) : Bool :=
  strContainsCI k "token" || strContainsCI k "secret" || strContainsCI k "key" ||
  strContainsCI k "password" || strContainsCI k "auth" || strContainsCI k "bearer" ||
  strContainsCI k "credential" || strContainsCI k "apikey"

/-- `/token|secret|key|password|auth|bearer|credential/i.test(v)` — the
string-content test of `redact` (note: no `apikey` alternative here). -/
def sensitiveContentTest (v : String) : Bool :=
  strContainsCI v "token" || strContainsCI v "secret" || strContainsCI v "key" ||
  strContainsCI v "password" || strContainsCI v "auth" || strContainsCI v "bearer" ||
  strContainsCI v "credential"

/-- Hexadecimal digit under the `/i` flag: `[0-9a-f]` case-insensitively. -/
def isHexCharCI (c : Char) : Bool :=
  ('0' ≤ c && c ≤ '9') || ('a' ≤ c && c ≤ 'f') || ('A' ≤ c && c ≤ 'F')

/-- `/^[0-9a-f]{20,}$/i.test(v)` — at least 20 characters, all of them
hex digits of either case. -/
def longHexTest (v : String) : Bool :=
  decide (20 ≤ v.length) && v.toList.all isHexCharCI

mutual

/-- `redact` of `src/unnamed/part_003` lines 18–46, case for one value. -/
def redact : JValue → JValue
  | .str s =>
    if sensitiveContentTest s && decide (s.length > 8) then .str redactedMarker
    else if longHexTest s then .str redactedMarker
    else .str s
  | .arr xs => .arr (redactList xs)
  | .obj kvs => .obj (redactFields kvs)
  | .null => .null
  | .bool b => .bool b
  | .num x => .num x

/-- `value.map(redact)` for arrays. -/
def redactList : List JValue → List JValue
  | [] => []
  | x :: xs => redact x :: redactList xs

/-- The `Object.entries` loop of `redact`: sensitive keys get the marker
wholesale, the rest are redacted recursively. -/
def redactFields : List (String × JValue) → List (String × JValue)
  | [] => []
  | (k, v) :: rest =>
    (if sensitiveKeyTest k then (k, JValue.str redactedMarker) else (k, redact v)) ::
      redactFields rest

end

/-! ## Spec-side model of redaction (§4.5 of the spec)

`redactSpecModel` follows the wording of the spec rather than the source:
a shared case-insensitive sensitive-term set drives both the key rule and
the content rule, and the two content heuristics are a single disjunction.
Its hex heuristic uses the case-insensitive test `longHexTest`, the one
amendment the code forces (the spec says lowercase-only, the source regex
carries the `/i` flag). -/

/-- The sensitive-term set listed by the spec. -/
def specSensitiveTerms : List String :=
  ["token", "secret", "key", "password", "auth", "bearer", "credential", "apikey"]

/-- A string matches the sensitive-term set case-insensitively anywhere in
its content. -/
def specTermMatch (s : String) : Bool :=
  specSensitiveTerms.any (fun t => strContainsCI s t)

/-- The content heuristic exactly as the spec words it: pure *lowercase*
hexadecimal of length at least 20.  Kept to state the counterexample for
the lowercase wording. -/
def specLowercaseHexTest (s : String) : Bool :=
  decide (20 ≤ s.length) &&
    s.toList.all (fun c => ('0' ≤ c && c ≤ '9') || ('a' ≤ c && c ≤ 'f'))

mutual

/-- §4.5 redaction, spec wording (hex rule amended to case-insensitive). -/
def redactSpecModel : JValue → JValue
  | .str s =>
    if (decide (s.length > 8) && specTermMatch s) || longHexTest s then
      .str redactedMarker
    else .str s
  | .arr xs => .arr (redactSpecList xs)
  | .obj kvs => .obj (redactSpecFields kvs)
  | .null => .null
  | .bool b => .bool b
  | .num x => .num x

/-- Arrays are redacted element-wise. -/
def redactSpecList : List JValue → List JValue
  | [] => []
  | x :: xs => redactSpecModel x :: redactSpecList xs

/-- Entries with a sensitive key get the marker wholesale; other entries
are redacted recursively. -/
def redactSpecFields : List (String × JValue) → List (String × JValue)
  | [] => []
  | (k, v) :: rest =>
    (if specTermMatch k then (k, JValue.str redactedMarker) else (k, redactSpecModel v)) ::
      redactSpecFields rest

end

/-! ## Health derivation: `src/app/api/status/route.ts` -/

/-- The `probe` field of one channel of the health snapshot. -/
structure ProbeInfo where
  ok : Option Bool := none
deriving DecidableEq

/-- One channel record of `healthData.channels`. -/
structure ChannelInfo where
  probe : Option ProbeInfo := none
  configured : Option Bool := none
deriving DecidableEq

/-- The health snapshot: `channels` may be absent
(`healthData.channels ?? {}` in the source). -/
structure HealthData where
  channels : Option (List (String × ChannelInfo)) := none
deriving DecidableEq

/-- The tri-state health value. -/
inductive Health where
  | healthy
  | degraded
  | unhealthy
deriving DecidableEq

/-- `channels[name]` — JS property lookup on the parsed object. -/
def lookupChannel (channels : List (String × ChannelInfo)) (name : String) :
    Option ChannelInfo :=
  (channels.find? (fun kv => kv.1 = name)).map (fun kv => kv.2)

/-- `channels[name]?.probe?.ok === true`. -/
def probeOkOf (channels : List (String × ChannelInfo)) (name : String) : Bool :=
  match lookupChannel channels name with
  | some ci =>
    match ci.probe with
    | some p => p.ok = some true
    | none => false
  | none => false

/-- JS truthiness of `channels[name]?.configured`. -/
def configuredOf (channels : List (String × ChannelInfo)) (name : String) : Bool :=
  match lookupChannel channels name with
  | some ci => ci.configured = some true
  | none => false

/-- Result record of `parseHealth`. -/
structure ParsedHealth where
  allProbesOk : Bool
  anyProbeOk : Bool
  channels : List String
deriving DecidableEq

/-- `parseHealth` of `src/app/api/status/route.ts` lines 27–36. -/
def parseHealth (healthData : Option HealthData) : ParsedHealth :=
  match healthData with
  | none => { allProbesOk := false, anyProbeOk := false, channels := [] }
  | some hd =>
    let channels := hd.channels.getD []
    let channelNames := channels.map (fun kv => kv.1)
    let probeResults := channelNames.map (fun name => probeOkOf channels name)
    { allProbesOk := decide (0 < probeResults.length) && probeResults.all (fun b => b)
      anyProbeOk := probeResults.any (fun b => b)
      channels :=
        channelNames.filter (fun name => configuredOf channels name && probeOkOf channels name) }

/-- `deriveHealth` of `src/app/api/status/route.ts` lines 21–25. -/
def deriveHealth (health : ParsedHealth) : Health :=
  if health.allProbesOk then .healthy
  else if health.anyProbeOk then .degraded
  else .unhealthy

/-! ## Status snapshot fields used by the derivers -/

/-- `gateway.self` of the status snapshot. -/
structure GatewaySelf where
  version : Option String := none
deriving DecidableEq

/-- `statusData.gateway`. -/
structure GatewayInfo where
  reachable : Option Bool := none
  self : Option GatewaySelf := none
deriving DecidableEq

/-- `update.registry`. -/
structure RegistryInfo where
  latestVersion : Option String := none
deriving DecidableEq

/-- `statusData.update`. -/
structure UpdateInfo where
  registry : Option RegistryInfo := none
deriving DecidableEq

/-- The fields of the status snapshot that the embedded derivations read.
Every field is optional, as in the source's defensive access. -/
structure StatusData where
  gateway : Option GatewayInfo := none
  update : Option UpdateInfo := none
  channelSummary : Option (List String) := none
deriving DecidableEq

/-- `(statusData?.gateway ?? {})`. -/
def gatewayOf (statusData : Option StatusData) : GatewayInfo :=
  (statusData.bind (fun sd => sd.gateway)).getD {}

/-- `(gateway.self ?? {})`. -/
def gatewaySelfOf (statusData : Option StatusData) : GatewaySelf :=
  ((gatewayOf statusData).self).getD {}

/-- `((statusData?.update ?? {}).registry ?? {})`. -/
def registryOf (statusData : Option StatusData) : RegistryInfo :=
  (((statusData.bind (fun sd => sd.update)).getD {}).registry).getD {}

/-- The claim-relevant fields of the object `buildStatus` returns in
`src/app/api/status/route.ts` (the `os`-metric fields are reads of the
host environment and are omitted; no claim mentions them). -/
structure StatusView where
  version : String
  health : Health
  activeChannels : List String
  gatewayReachable : Bool
deriving DecidableEq

/-- `buildStatus` of `src/app/api/status/route.ts` lines 38–102,
restricted to the fields above.  Note that `health` is derived from the
health snapshot alone. -/
def statusBuildStatus (statusData : Option StatusData) (healthData : Option HealthData) :
    StatusView :=
  let health := parseHealth healthData
  let gatewaySelf := gatewaySelfOf statusData
  let registry := registryOf statusData
  { version := (registry.latestVersion.orElse (fun _ => gatewaySelf.version)).getD "—"
    health := deriveHealth health
    activeChannels := health.channels
    gatewayReachable := ((gatewayOf statusData).reachable).getD false }

/-! ## The status-route variant embedded in `src/app/api/daily/route.ts`
(second file of that blob, lines 85–208 of the concatenation) -/

/-- JS `\w` (ASCII word character). -/
def isWordChar (c : Char) : Bool :=
  ('a' ≤ c && c ≤ 'z') || ('A' ≤ c && c ≤ 'Z') || ('0' ≤ c && c ≤ '9') || c = '_'

/-- `\s+configured`: one or more whitespace characters followed by the
literal `configured`. -/
def spacesThenConfigured : List Char → Bool
  | [] => false
  | c :: rest =>
    isJsSpace c && ("configured".toList.isPrefixOf rest || spacesThenConfigured rest)

/-- After the leading word character: `[\w\s]*?:\s+configured` — zero or
more word/space characters, a colon, then `\s+configured`.  `test` only
asks for existence, so the lazy quantifier is plain existence here. -/
def configuredTail : List Char → Bool
  | [] => false
  | c :: rest =>
    (c = ':' && spacesThenConfigured rest) ||
      ((isWordChar c || isJsSpace c) && configuredTail rest)

/-- `/^\w[\w\s]*?:\s+configured/.test(line.trim())`. -/
def configuredLineTest (line : String) : Bool :=
  match jsTrimList line.toList with
  | [] => false
  | c :: rest => isWordChar c && configuredTail rest

/-- `parseChannelSummary` of the daily-route variant (lines 110–114): keep
lines whose trimmed text matches the regex, then take the text before the
first colon, trimmed and lowercased. -/
def parseChannelSummary (channelSummary : List String) : List String :=
  (channelSummary.filter configuredLineTest).map
    (fun line => lowerStr (jsTrim ((jsSplit line ":").headD line)))

/-- Claim-relevant fields of the daily-route `buildStatus` result. -/
structure DailyView where
  version : String
  health : Health
  activeChannels : List String
  gatewayReachable : Bool
deriving DecidableEq

/-- `buildStatus` of the daily-route variant, lines 116–188 of the blob;
the health tri-state is on lines 138–146. -/
def dailyBuildStatus (statusData : Option StatusData) : DailyView :=
  let gatewaySelf := gatewaySelfOf statusData
  let registry := registryOf statusData
  let gatewayReachable := ((gatewayOf statusData).reachable).getD false
  let activeChannels :=
    parseChannelSummary ((statusData.bind (fun sd => sd.channelSummary)).getD [])
  { version := (gatewaySelf.version.orElse (fun _ => registry.latestVersion)).getD "—"
    health :=
      if gatewayReachable = false then .unhealthy
      else if 0 < activeChannels.length then .healthy
      else .degraded
    activeChannels := activeChannels
    gatewayReachable := gatewayReachable }

/-! ## The cached status `GET` handler (`src/app/api/status/route.ts`
lines 104–129) -/

/-- The module-level cache cell `cache : { data, ts } | null`. -/
structure StatusCacheEntry where
  data : StatusView
  ts : Nat
deriving DecidableEq

/-- `CACHE_TTL` of the status route (30 seconds). -/
def STATUS_CACHE_TTL : Nat := 30000

/-- What the `try` block observes: either both `runCLI` results (each
possibly `null`), or the block raising.  `runCLI` itself never throws —
the `throws` constructor models the remaining JS failure modes that the
handler's `catch` guards (e.g. response construction). -/
inductive StatusTryOutcome where
  | ok (statusData : Option StatusData) (healthData : Option HealthData)
  | throws
deriving DecidableEq

/-- The response shapes the handler can produce: a JSON body carrying the
derived data with its `cached` / `stale` flags (absent flags are
`false`), or an error body with its HTTP status. -/
inductive StatusResponse where
  | json (data : StatusView) (cached : Bool) (stale : Bool)
  | error (status : Nat)
deriving DecidableEq

/-- Is the cache entry fresh at `now` (`now - cache.ts < CACHE_TTL`)? -/
def statusCacheFresh (cache : Option StatusCacheEntry) (now : Nat) : Bool :=
  match cache with
  | some c => now - c.ts < STATUS_CACHE_TTL
  | none => false

/-- The `try`/`catch` part of the handler. -/
def statusTryBody (cache : Option StatusCacheEntry) (now : Nat)
    (outcome : StatusTryOutcome) : StatusResponse × Option StatusCacheEntry :=
  match outcome with
  | .ok statusData healthData =>
    let data := statusBuildStatus statusData healthData
    (.json data false false, some { data := data, ts := now })
  | .throws =>
    match cache with
    | some c => (.json c.data true true, some c)
    | none => (.error 500, none)

/-- `GET` of `src/app/api/status/route.ts`: serve the cache while fresh,
otherwise run the try block; on a throw fall back to the cached entry
(flagged `cached`, `stale`) or a 500 error. -/
def statusGET (cache : Option StatusCacheEntry) (now : Nat)
    (outcome : StatusTryOutcome) : StatusResponse × Option StatusCacheEntry :=
  match cache with
  | some c =>
    if now - c.ts < STATUS_CACHE_TTL then (.json c.data true false, some c)
    else statusTryBody (some c) now outcome
  | none => statusTryBody none now outcome

/-! ## Model of `JSON.parse` and the process-bridge functions -/

/-- JSON insignificant whitespace. -/
def isJsonWs (c : Char) : Bool := c = ' ' || c = '\t' || c = '\n' || c = '\r'

/-- Skip JSON whitespace. -/
def skipWs : List Char → List Char
  | [] => []
  | c :: rest => if isJsonWs c then skipWs rest else c :: rest

/-- Hexadecimal digit value for `\u` escapes, by code point: digits are
48–57, lowercase a–f are 97–102, uppercase A–F are 65–70. -/
def hexVal (c : Char) : Option Nat :=
  let n := c.toNat
  if 48 ≤ n && n ≤ 57 then some (n - 48)
  else if 97 ≤ n && n ≤ 102 then some (n - 87)
  else if 65 ≤ n && n ≤ 70 then some (n - 55)
  else none

/-- Body of a JSON string literal after the opening quote: returns the
decoded string and the remaining input.  Raw control characters and
unknown escapes are rejected, as `JSON.parse` rejects them.  Surrogate
pairing of `\u` escapes is not recombined (no input in this development
uses them). -/
def parseStringBody : List Char → List Char → Option (String × List Char)
  | [], _ => none
  | c :: rest, acc =>
    if c = quoteChar then some (String.mk acc.reverse, rest)
    else if c = backslashChar then
      match rest with
      | [] => none
      | e :: rest2 =>
        if e = quoteChar then parseStringBody rest2 (quoteChar :: acc)
        else if e = backslashChar then parseStringBody rest2 (backslashChar :: acc)
        else if e = '/' then parseStringBody rest2 ('/' :: acc)
        else if e = 'b' then parseStringBody rest2 (Char.ofNat 8 :: acc)
        else if e = 'f' then parseStringBody rest2 (Char.ofNat 12 :: acc)
        else if e = 'n' then parseStringBody rest2 ('\n' :: acc)
        else if e = 'r' then parseStringBody rest2 ('\r' :: acc)
        else if e = 't' then parseStringBody rest2 ('\t' :: acc)
        else if e = 'u' then
          match rest2 with
          | h1 :: h2 :: h3 :: h4 :: rest3 =>
            match hexVal h1, hexVal h2, hexVal h3, hexVal h4 with
            | some a, some b, some c2, some d =>
              parseStringBody rest3 (Char.ofNat (((a * 16 + b) * 16 + c2) * 16 + d) :: acc)
            | _, _, _, _ => none
          | _ => none
        else none
    else if c.toNat < 32 then none
    else parseStringBody rest (c :: acc)

/-- Decimal digit. -/
def isDigitChar (c : Char) : Bool := '0' ≤ c && c ≤ '9'

/-- Longest digit run at the front. -/
def spanDigits : List Char → List Char × List Char
  | [] => ([], [])
  | c :: rest =>
    if isDigitChar c then
      let (ds, r) := spanDigits rest
      (c :: ds, r)
    else ([], c :: rest)

/-- Optional JSON fraction part `.digits+`. -/
def lexFrac : List Char → Option (List Char × List Char)
  | '.' :: rest =>
    match spanDigits rest with
    | ([], _) => none
    | (ds, r) => some ('.' :: ds, r)
  | cs => some ([], cs)

/-- Optional JSON exponent part `[eE][+-]?digits+`. -/
def lexExp : List Char → Option (List Char × List Char)
  | [] => some ([], [])
  | c :: rest =>
    if c = 'e' || c = 'E' then
      let (sign, r1) :=
        match rest with
        | '+' :: r => (['+'], r)
        | '-' :: r => (['-'], r)
        | r => (([] : List Char), r)
      match spanDigits r1 with
      | ([], _) => none
      | (ds, r2) => some (c :: (sign ++ ds), r2)
    else some ([], c :: rest)

/-- JSON number lexeme: `-?(0|[1-9][0-9]*)(\.[0-9]+)?([eE][+-]?[0-9]+)?`. -/
def lexNumber (cs : List Char) : Option (String × List Char) :=
  let (neg, cs1) :=
    match cs with
    | '-' :: r => ((['-'] : List Char), r)
    | r => (([] : List Char), r)
  match cs1 with
  | [] => none
  | c :: r =>
    if c = '0' then do
      let (f, r1) ← lexFrac r
      let (e, r2) ← lexExp r1
      some (String.mk (neg ++ ['0'] ++ f ++ e), r2)
    else if isDigitChar c then do
      let (ds, r0) := spanDigits (c :: r)
      let (f, r1) ← lexFrac r0
      let (e, r2) ← lexExp r1
      some (String.mk (neg ++ ds ++ f ++ e), r2)
    else none

/-- Mode of the recursive-descent step: a value, the members of an object
(accumulated so far), or the elements of an array. -/
inductive PMode where
  | value
  | objMembers (acc : List (String × JValue))
  | arrElems (acc : List JValue)

/-- One fuel-indexed step of the `JSON.parse` model.  In `objMembers` /
`arrElems` mode the input starts at a key / element (whitespace already
skipped, closing bracket of the empty collection already handled). -/
def parseStep : Nat → PMode → List Char → Option (JValue × List Char)
  | 0, _, _ => none
  | fuel + 1, .value, cs =>
    match skipWs cs with
    | [] => none
    | c :: rest =>
      if c = lbraceChar then
        match skipWs rest with
        | [] => none
        | d :: rest2 =>
          if d = rbraceChar then some (JValue.obj [], rest2)
          else parseStep fuel (.objMembers []) (d :: rest2)
      else if c = lbrackChar then
        match skipWs rest with
        | [] => none
        | d :: rest2 =>
          if d = rbrackChar then some (JValue.arr [], rest2)
          else parseStep fuel (.arrElems []) (d :: rest2)
      else if c = quoteChar then
        match parseStringBody rest [] with
        | some (s, r) => some (JValue.str s, r)
        | none => none
      else if c = 't' then
        match rest with
        | 'r' :: 'u' :: 'e' :: r => some (JValue.bool true, r)
        | _ => none
      else if c = 'f' then
        match rest with
        | 'a' :: 'l' :: 's' :: 'e' :: r => some (JValue.bool false, r)
        | _ => none
      else if c = 'n' then
        match rest with
        | 'u' :: 'l' :: 'l' :: r => some (JValue.null, r)
        | _ => none
      else if c = '-' || isDigitChar c then
        match lexNumber (c :: rest) with
        | some (lex, r) => some (JValue.num lex, r)
        | none => none
      else none
  | fuel + 1, .objMembers acc, cs =>
    match cs with
    | [] => none
    | c :: rest =>
      if c = quoteChar then
        match parseStringBody rest [] with
        | some (k, r1) =>
          match skipWs r1 with
          | ':' :: r2 =>
            match parseStep fuel .value r2 with
            | some (v, r3) =>
              match skipWs r3 with
              | [] => none
              | ',' :: r4 =>
                match skipWs r4 with
                | [] => none
                | d :: r5 => parseStep fuel (.objMembers (acc ++ [(k, v)])) (d :: r5)
              | d :: r4 =>
                if d = rbraceChar then some (JValue.obj (acc ++ [(k, v)]), r4) else none
            | none => none
          | _ => none
        | none => none
      else none
  | fuel + 1, .arrElems acc, cs =>
    match parseStep fuel .value cs with
    | some (v, r1) =>
      match skipWs r1 with
      | [] => none
      | ',' :: r2 => parseStep fuel (.arrElems (acc ++ [v])) r2
      | d :: r2 => if d = rbrackChar then some (JValue.arr (acc ++ [v]), r2) else none
    | none => none

/-- `JSON.parse` on a character list: parse one value and require only
whitespace to follow. -/
def jsonParseList (cs : List Char) : Option JValue :=
  match parseStep (2 * cs.length + 2) .value cs with
  | some (v, rest) => if (skipWs rest).isEmpty then some v else none
  | none => none

/-- `JSON.parse` on a string. -/
def jsonParse (s : String) : Option JValue := jsonParseList s.toList

/-- Outcome of one `execSync` invocation: captured standard output, or any
process-level failure (timeout, non-zero exit, spawn error). -/
inductive ProcOutcome where
  | success (stdout : String)
  | failure

/-- `runCLI` of `src/app/api/status/route.ts` lines 9–19 (the identical
copies in the daily-route blob, `part_002` and `part_003` share this
model): find the first brace, parse from there to the end, `null` on any
failure. -/
def runCLIModel : ProcOutcome → Option JValue
  | .failure => none
  | .success out =>
    let fromBrace := out.toList.dropWhile (fun c => c ≠ lbraceChar)
    if fromBrace.isEmpty then none else jsonParseList fromBrace

/-- `execJSON` of `src/app/api/activity/route.ts` lines 11–18: trim the
whole output and parse it as-is, `null` on any failure. -/
def execJSONModel : ProcOutcome → Option JValue
  | .failure => none
  | .success out => jsonParseList (jsTrimList out.toList)

/-! ## Activity normalizer (`src/app/api/activity/route.ts` lines 20–166) -/

/-- `ActivityType` of `src/unnamed/part_000`. -/
inductive ActivityType where
  | message
  | task
  | cron
  | heartbeat
  | memory
  | tool
  | error
deriving DecidableEq

/-- The string value of an `ActivityType` (the union members are string
literals in the source). -/
def activityTypeStr : ActivityType → String
  | .message => "message"
  | .task => "task"
  | .cron => "cron"
  | .heartbeat => "heartbeat"
  | .memory => "memory"
  | .tool => "tool"
  | .error => "error"

/-- `ChannelType` of `src/unnamed/part_000`. -/
inductive ChannelType where
  | slack
  | discord
  | telegram
  | imessage
  | signal
  | terminal
  | api
  | cron
  | web
deriving DecidableEq

/-- The string value of a `ChannelType`. -/
def channelTypeStr : ChannelType → String
  | .slack => "slack"
  | .discord => "discord"
  | .telegram => "telegram"
  | .imessage => "imessage"
  | .signal => "signal"
  | .terminal => "terminal"
  | .api => "api"
  | .cron => "cron"
  | .web => "web"

/-- `ActivityStatus` of `src/unnamed/part_000`. -/
inductive ActivityStatus where
  | success
  | error
  | pending
  | running
deriving DecidableEq

/-- `ActivityEntry`, with the timestamp as epoch milliseconds (see the
header comment). -/
structure ActivityEntry where
  id : String
  timestampMs : Nat
  type : ActivityType
  channel : ChannelType
  summary : String
  status : ActivityStatus
  agentId : Option String := none
  tokensUsed : Option Nat := none
  details : Option String := none
deriving DecidableEq

/-- One record of `openclaw sessions list --json`. -/
structure SessionRec where
  key : String
  kind : String
  updatedAt : Nat
  sessionId : String
  model : Option String := none
  totalTokens : Option Nat := none
  inputTokens : Option Nat := none
  outputTokens : Option Nat := none
deriving DecidableEq

/-- `key.split('cron:')[1]?.slice(0, 8) || 'unknown'`. -/
def cronIdOf (key : String) : String :=
  match (jsSplit key "cron:").get? 1 with
  | some p =>
    let c := String.mk (p.toList.take 8)
    if c = "" then "unknown" else c
  | none => "unknown"

/-- `key.split('spawn:')[1] || 'subagent'`. -/
def spawnLabelOf (key : String) : String :=
  match (jsSplit key "spawn:").get? 1 with
  | some p => if p = "" then "subagent" else p
  | none => "subagent"

/-- The classification ladder of the session loop (lines 53–81): first
match wins, producing type, channel and summary. -/
def classifySession (key : String) : ActivityType × ChannelType × String :=
  if strContains key "cron" then (.cron, .cron, "Cron job " ++ cronIdOf key)
  else if strContains key "spawn" then (.task, .terminal, "Sub-agent: " ++ spawnLabelOf key)
  else if strContains key "telegram" then (.message, .telegram, "Telegram conversation")
  else if strContains key "discord" then (.message, .discord, "Discord conversation")
  else if strContains key "imessage" then (.message, .imessage, "iMessage conversation")
  else if key = "agent:main:main" then (.message, .telegram, "Main session (Telegram)")
  else (.message, .terminal, "Session: " ++ key)

/-- `sess.totalTokens || ((sess.inputTokens || 0) + (sess.outputTokens || 0))`. -/
def sessionTokens (sess : SessionRec) : Nat :=
  match sess.totalTokens with
  | some t =>
    if t = 0 then sess.inputTokens.getD 0 + sess.outputTokens.getD 0 else t
  | none => sess.inputTokens.getD 0 + sess.outputTokens.getD 0

/-- One pushed entry of the session loop (lines 85–95).  `details` uses
the plain decimal rendering of the token count (the locale digit grouping
of `toLocaleString` is presentational and not modelled). -/
def sessionEntry (sess : SessionRec) : ActivityEntry :=
  let key := sess.key
  let cls := classifySession key
  let tokens := sessionTokens sess
  { id := if sess.sessionId = "" then key else sess.sessionId
    timestampMs := sess.updatedAt
    type := cls.1
    channel := cls.2.1
    summary := cls.2.2
    status := .success
    agentId := if strContains key "agent:main" then some "main" else (jsSplit key ":").get? 1
    tokensUsed := if tokens = 0 then none else some tokens
    details :=
      some ("Model: " ++ sess.model.getD "unknown" ++ " | Tokens: " ++ Nat.repr tokens) }

/-- The schedule object of a cron-list record. -/
structure CronSchedule where
  kind : String
  expr : Option String := none
  everyMs : Option Nat := none
deriving DecidableEq

/-- One record of `openclaw cron list --json` as the activity route reads
it.  `lastRunAt` is a date string in the source; it is modelled as the
parsed millisecond value, `none` when the field is absent or empty
(both are falsy for the `if (job.lastRunAt)` guard). -/
structure CronRec where
  id : String
  name : Option String := none
  enabled : Bool
  schedule : Option CronSchedule := none
  lastRunAt : Option Nat := none
  lastRunStatus : Option String := none
deriving DecidableEq

/-- `job.schedule?.expr || job.schedule?.kind || 'unknown'` (JS `||`:
empty strings fall through). -/
def cronScheduleText (schedule : Option CronSchedule) : String :=
  let expr := (schedule.bind (fun s => s.expr)).getD ""
  if expr ≠ "" then expr
  else
    let kind := (schedule.map (fun s => s.kind)).getD ""
    if kind ≠ "" then kind else "unknown"

/-- The cron loop (lines 115–127): jobs with a recorded last run become
one entry. -/
def cronEntry (job : CronRec) : Option ActivityEntry :=
  match job.lastRunAt with
  | none => none
  | some ts =>
    some
      { id := "cron_" ++ job.id
        timestampMs := ts
        type := .cron
        channel := .cron
        summary := "Cron: " ++ (match job.name with
          | some n => if n = "" then job.id else n
          | none => job.id)
        status := if job.lastRunStatus = some "error" then .error else .success
        details :=
          some ("Schedule: " ++ cronScheduleText job.schedule ++ " | Enabled: " ++
            (if job.enabled then "true" else "false")) }

/-- `content.split('\n').filter(l => l.startsWith('## ') || l.startsWith('### '))`. -/
def memoryHeadings (content : String) : List String :=
  (jsSplit content "\n").filter
    (fun l => "## ".toList.isPrefixOf l.toList || "### ".toList.isPrefixOf l.toList)

/-- `line.replace(/^#+\s*/, '')`: strip the leading hash run and the
whitespace after it (a single replacement of the anchored pattern). -/
def stripHeading (s : String) : String :=
  match s.toList with
  | [] => s
  | c :: _ =>
    if c = '#' then String.mk ((s.toList.dropWhile (fun d => d = '#')).dropWhile isJsSpace)
    else s

/-- The memory loop (lines 130–150): the first `min(lines.length, 5)`
heading lines of the current day's note each become one `memory` entry
with the synthesized `now` timestamp.  `today` is the date slice of the
current ISO timestamp, passed in as a string. -/
def memoryEntries (content : Option String) (today : String) (nowMs : Nat) :
    List ActivityEntry :=
  match content with
  | none => []
  | some c =>
    let lines := memoryHeadings c
    (List.range (min lines.length 5)).map (fun i =>
      { id := "mem_" ++ today ++ "_" ++ Nat.repr i
        timestampMs := nowMs
        type := .memory
        channel := .terminal
        summary := "Memory: " ++ stripHeading ((lines.get? i).getD "")
        status := .success
        details := some ("Source: memory/" ++ today ++ ".md") })

/-- Stable insertion into a timestamp-descending list: the JS comparator
`(a, b) => tb - ta` under the (stable) `Array.prototype.sort`. -/
def insertDesc (x : ActivityEntry) : List ActivityEntry → List ActivityEntry
  | [] => [x]
  | y :: ys => if y.timestampMs ≤ x.timestampMs then x :: y :: ys else y :: insertDesc x ys

/-- Stable sort by timestamp descending (line 153). -/
def sortDesc (l : List ActivityEntry) : List ActivityEntry :=
  l.foldr insertDesc []

/-- The dedupe loop (lines 156–161): keep the first occurrence of each id. -/
def dedupeGo (seen : List String) : List ActivityEntry → List ActivityEntry
  | [] => []
  | e :: es => if e.id ∈ seen then dedupeGo seen es else e :: dedupeGo (e.id :: seen) es

/-- `entries.filter` with the `seen` set. -/
def dedupeById (l : List ActivityEntry) : List ActivityEntry := dedupeGo [] l

/-- `getSessionActivity` without its 3-second memo (a cache hit returns a
previously computed value of the same shape): concatenate the three
sources in push order, sort by timestamp descending, dedupe by id. -/
def normalizeActivity (sessions : List SessionRec) (cronJobs : List CronRec)
    (memoryContent : Option String) (today : String) (nowMs : Nat) : List ActivityEntry :=
  dedupeById (sortDesc
    (sessions.map sessionEntry ++ cronJobs.filterMap cronEntry ++
      memoryEntries memoryContent today nowMs))

/-! ## Activity query handler (`GET`, lines 168–203) -/

/-- The JSON body of the activity `GET` response. -/
structure ActivityQueryResult where
  items : List ActivityEntry
  total : Nat
  page : Nat
  pageSize : Nat
  hasMore : Bool
deriving DecidableEq

/-- `if (type) entries = entries.filter(e => e.type === type)` — the query
parameter is a raw string, absent (`null`) or empty strings are falsy. -/
def filterType (t : Option String) (entries : List ActivityEntry) : List ActivityEntry :=
  match t with
  | some s => if s = "" then entries else entries.filter (fun e => activityTypeStr e.type = s)
  | none => entries

/-- `if (channel) entries = entries.filter(e => e.channel === channel)`. -/
def filterChannel (c : Option String) (entries : List ActivityEntry) : List ActivityEntry :=
  match c with
  | some s => if s = "" then entries else entries.filter (fun e => channelTypeStr e.channel = s)
  | none => entries

/-- The search predicate of lines 181–185, with `search` already
lowercased. -/
def searchMatch (s : String) (e : ActivityEntry) : Bool :=
  strContains (lowerStr e.summary) s || strContains (activityTypeStr e.type) s ||
    (match e.agentId with
     | some a => strContains (lowerStr a) s
     | none => false)

/-- `searchParams.get('search')?.toLowerCase()` then the conditional
filter (an empty search string is falsy and skips the filter). -/
def filterSearch (q : Option String) (entries : List ActivityEntry) : List ActivityEntry :=
  match q.map lowerStr with
  | some s => if s = "" then entries else entries.filter (searchMatch s)
  | none => entries

/-- `GET` of the activity route, after parameter parsing: sequential
filters, then 1-indexed slicing.  `page = 0` would make the JS `slice`
start negative (wrap-around); the claims restrict to `page ≥ 1`, where
the `Nat` model agrees with the source. -/
def activityGET (entries : List ActivityEntry) (type channel search : Option String)
    (page pageSize : Nat) : ActivityQueryResult :=
  let filtered := filterSearch search (filterChannel channel (filterType type entries))
  let total := filtered.length
  let start := (page - 1) * pageSize
  { items := (filtered.drop start).take pageSize
    total := total
    page := page
    pageSize := pageSize
    hasMore := decide (start + pageSize < total) }

/-! ## Cron summary mapping (`src/unnamed/part_002` lines 56–92) -/

/-- The `state` object of one cron-list record as `buildSystemData` reads
it. -/
structure CronJobState where
  lastRunAtMs : Option Nat := none
  nextRunAtMs : Option Nat := none
  lastStatus : Option String := none
  lastDurationMs : Option Nat := none
  consecutiveErrors : Option Nat := none
deriving DecidableEq

/-- The schedule object of one cron-list record in `part_002`. -/
structure SysCronSchedule where
  kind : String
  expr : String
  tz : Option String := none
deriving DecidableEq

/-- One record of `cronData.jobs` in `part_002`. -/
structure SysCronJob where
  id : String
  name : String
  enabled : Bool
  schedule : Option SysCronSchedule := none
  state : Option CronJobState := none
  payloadMessage : Option String := none
deriving DecidableEq

/-- The summary row produced for one job. -/
structure CronJobSummary where
  id : String
  name : String
  schedule : String
  description : String
  lastRun : Option Nat
  nextRun : Option Nat
  lastStatus : String
  totalRuns : Nat
  successRate : Int
  enabled : Bool
  consecutiveErrors : Nat
deriving DecidableEq

/-- The `.map(job => ...)` body of `buildSystemData` lines 69–92.
`lastRunAtMs ? ... : null` is a truthiness test, so a literal `0` is also
`null`; timestamps stay in milliseconds. -/
def mapCronJob (job : SysCronJob) : CronJobSummary :=
  let state := job.state.getD {}
  { id := job.id
    name := job.name
    schedule :=
      match job.schedule with
      | some s => if s.kind = "cron" then s.expr else s.kind
      | none => "manual"
    description := String.mk ((job.payloadMessage.getD "").toList.take 120)
    lastRun :=
      match state.lastRunAtMs with
      | some t => if t = 0 then none else some t
      | none => none
    nextRun :=
      match state.nextRunAtMs with
      | some t => if t = 0 then none else some t
      | none => none
    lastStatus :=
      if state.lastStatus = some "ok" then "success" else state.lastStatus.getD "unknown"
    totalRuns := 0
    successRate :=
      if state.consecutiveErrors = some 0 then 100
      else max 0 (100 - (state.consecutiveErrors.getD 0 : Int) * 20)
    enabled := job.enabled
    consecutiveErrors := state.consecutiveErrors.getD 0 }

/-- The consecutive-error count a job record carries
(`state.consecutiveErrors ?? 0`). -/
def consecutiveErrorsVal (job : SysCronJob) : Nat :=
  ((job.state.getD {}).consecutiveErrors).getD 0


/-! ## Concrete snapshots used by counterexamples and witnesses -/

/-- A status snapshot whose gateway is explicitly unreachable. -/
def sdUnreachable : Option StatusData :=
  some { gateway := some { reachable := some false } }

/-- A status snapshot whose gateway is explicitly reachable. -/
def sdReachable : Option StatusData :=
  some { gateway := some { reachable := some true } }

/-- One configured channel with a healthy probe. -/
def chanOk : ChannelInfo := { probe := some { ok := some true }, configured := some true }

/-- One unconfigured channel with a failing probe. -/
def chanBadUnconfigured : ChannelInfo :=
  { probe := some { ok := some false }, configured := some false }

/-- Health snapshot: a single configured, healthy channel. -/
def hdOneOk : Option HealthData := some { channels := some [("telegram", chanOk)] }

/-- Health snapshot: configured channel "a" healthy, unconfigured channel
"b" failing. -/
def hdMixed : HealthData :=
  { channels := some [("a", chanOk), ("b", chanBadUnconfigured)] }

/-- An unreachable-gateway snapshot that also lists a configured channel. -/
def sdUnreachableWithChannel : Option StatusData :=
  some { gateway := some { reachable := some false },
         channelSummary := some ["Telegram: configured"] }

/-- A reachable-gateway snapshot that also lists a configured channel. -/
def sdReachableWithChannel : Option StatusData :=
  some { gateway := some { reachable := some true },
         channelSummary := some ["Telegram: configured"] }

/-! # Theorems -/

/-! ## Substring-search facts -/

theorem containsAux_iff (pat : List Char) :
    ∀ l : List Char, containsAux pat l = true ↔ pat <:+: l := by
  intro l
  induction l with
  | nil =>
    simp [containsAux, List.isEmpty_iff, List.infix_nil]
  | cons c rest ih =>
    simp [containsAux, List.infix_cons_iff, List.isPrefixOf_iff_prefix, ih]

theorem key_infix_content (s : String) :
    strContainsCI s "key" = true → sensitiveContentTest s = true := by
  intro h
  simp [sensitiveContentTest, h]

theorem apikey_imp_key (s : String) :
    strContainsCI s "apikey" = true → strContainsCI s "key" = true := by
  unfold strContainsCI
  rw [containsAux_iff, containsAux_iff]
  intro h
  exact List.IsInfix.trans (by decide) h

theorem specTermMatch_eq_or (s : String) :
    specTermMatch s = (sensitiveContentTest s || strContainsCI s "apikey") := by
  simp [specTermMatch, specSensitiveTerms, sensitiveContentTest, List.any_cons, List.any_nil,
    Bool.or_assoc]

theorem specTermMatch_eq_keyTest (s : String) :
    specTermMatch s = sensitiveKeyTest s := by
  simp [specTermMatch, specSensitiveTerms, sensitiveKeyTest, List.any_cons, List.any_nil,
    Bool.or_assoc]

/-! ## Redaction: implementation vs spec wording -/

mutual

theorem redact_eq_specModel : ∀ v, redact v = redactSpecModel v
  | .null => rfl
  | .bool _ => rfl
  | .num _ => rfl
  | .str s => by
    rw [redact, redactSpecModel, specTermMatch_eq_or s]
    cases hK : strContainsCI s "apikey" with
    | false =>
      cases hH : longHexTest s <;> cases hA : sensitiveContentTest s <;>
        cases hL : decide (s.length > 8) <;> simp [hH, hA, hL]
    | true =>
      have hA : sensitiveContentTest s = true :=
        key_infix_content s (apikey_imp_key s hK)
      cases hH : longHexTest s <;> cases hL : decide (s.length > 8) <;> simp [hH, hA, hL]
  | .arr xs => by rw [redact, redactSpecModel, redactList_eq_specList xs]
  | .obj kvs => by rw [redact, redactSpecModel, redactFields_eq_specFields kvs]

theorem redactList_eq_specList : ∀ xs, redactList xs = redactSpecList xs
  | [] => rfl
  | x :: xs => by
    rw [redactList, redactSpecList, redact_eq_specModel x, redactList_eq_specList xs]

theorem redactFields_eq_specFields : ∀ kvs, redactFields kvs = redactSpecFields kvs
  | [] => rfl
  | (k, v) :: rest => by
    rw [redactFields, redactSpecFields, redact_eq_specModel v,
      redactFields_eq_specFields rest, specTermMatch_eq_keyTest k]

end

/-! ## Redaction: idempotence -/

mutual

theorem redact_idem_val : ∀ v, redact (redact v) = redact v
  | .null => rfl
  | .bool _ => rfl
  | .num _ => rfl
  | .str s => by
    rw [redact]
    cases hA : (sensitiveContentTest s && decide (s.length > 8)) <;>
      cases hH : longHexTest s <;> simp [hA, hH] <;> rw [redact] <;> simp [hA, hH]
  | .arr xs => by rw [redact, redact, redactList_idem xs]
  | .obj kvs => by rw [redact, redact, redactFields_idem kvs]

theorem redactList_idem : ∀ xs, redactList (redactList xs) = redactList xs
  | [] => rfl
  | x :: xs => by
    rw [redactList, redactList, redact_idem_val x, redactList_idem xs]

theorem redactFields_idem : ∀ kvs, redactFields (redactFields kvs) = redactFields kvs
  | [] => rfl
  | (k, v) :: rest => by
    cases hS : sensitiveKeyTest k
    · rw [redactFields, if_neg (by simp [hS]), redactFields, if_neg (by simp [hS]),
        redact_idem_val v, redactFields_idem rest]
    · rw [redactFields, if_pos (by simp [hS]), redactFields, if_pos (by simp [hS]),
        redactFields_idem rest]

end

theorem redactFields_fst : ∀ kvs, (redactFields kvs).map Prod.fst = kvs.map Prod.fst
  | [] => rfl
  | (k, v) :: rest => by
    cases hS : sensitiveKeyTest k <;>
      simp [redactFields, hS, redactFields_fst rest]

theorem redactList_length : ∀ xs, (redactList xs).length = xs.length
  | [] => rfl
  | _ :: xs => by simp [redactList, redactList_length xs]

/-- C5 counterexample: a 20-character *uppercase* hexadecimal string is
redacted by the source (its hex regex carries the `/i` flag), while the
claim's "pure lowercase hexadecimal" reading — formalised by
`specLowercaseHexTest` — says it passes through unchanged: it is neither
lowercase hex nor a long string containing a sensitive term. -/
theorem c5_lowercase_hex_counterexample :
    redact (JValue.str "ABCDEF0123456789ABCD") = JValue.str redactedMarker ∧
    specLowercaseHexTest "ABCDEF0123456789ABCD" = false ∧
    (decide (("ABCDEF0123456789ABCD" : String).length > 8) &&
      specTermMatch "ABCDEF0123456789ABCD") = false :=
  ⟨rfl, by decide, by decide⟩

/-- C5 (amended): `redact` behaves exactly as the spec's recursive
redaction rule — sensitive keys replaced wholesale, other mapping entries
and array elements redacted recursively, strings redacted iff they are
longer than 8 characters and contain a sensitive term, or are pure
*case-insensitive* hexadecimal of length at least 20 (the sole amendment:
the spec says lowercase-only, the source regex is case-insensitive); all
other scalars pass through unchanged.  `redactSpecModel` is the spec-worded
transform. -/
theorem c5_redact_matches_spec : ∀ v, redact v = redactSpecModel v :=
  redact_eq_specModel

/-- C10: `redact` is idempotent, the marker itself is a fixed point, and
redaction preserves shape — mappings keep their key list, arrays keep
their length, non-string scalars are unchanged. -/
theorem c10_redact_idempotent_and_shape :
    (∀ v, redact (redact v) = redact v) ∧
    redact (JValue.str redactedMarker) = JValue.str redactedMarker ∧
    (∀ kvs, redact (JValue.obj kvs) = JValue.obj (redactFields kvs) ∧
      (redactFields kvs).map Prod.fst = kvs.map Prod.fst) ∧
    (∀ xs, redact (JValue.arr xs) = JValue.arr (redactList xs) ∧
      (redactList xs).length = xs.length) ∧
    (∀ x, redact (JValue.num x) = JValue.num x) ∧
    (∀ b, redact (JValue.bool b) = JValue.bool b) ∧
    redact JValue.null = JValue.null :=
  ⟨redact_idem_val, rfl,
    fun kvs => ⟨rfl, redactFields_fst kvs⟩,
    fun xs => ⟨rfl, redactList_length xs⟩,
    fun _ => rfl, fun _ => rfl, rfl⟩

/-! ## Health derivation facts -/

theorem statusBuildStatus_health (sd : Option StatusData) (hd : Option HealthData) :
    (statusBuildStatus sd hd).health = deriveHealth (parseHealth hd) := rfl

theorem parseHealth_any (hd : HealthData) :
    (parseHealth (some hd)).anyProbeOk = true ↔
      ∃ name ∈ (hd.channels.getD []).map Prod.fst,
        probeOkOf (hd.channels.getD []) name = true := by
  simp [parseHealth, List.any_eq_true, List.mem_map]

theorem parseHealth_all (hd : HealthData) :
    (parseHealth (some hd)).allProbesOk = true ↔
      ((hd.channels.getD []).map Prod.fst ≠ [] ∧
        ∀ name ∈ (hd.channels.getD []).map Prod.fst,
          probeOkOf (hd.channels.getD []) name = true) := by
  simp [parseHealth, List.all_eq_true, List.mem_map, List.length_pos_iff_ne_nil]


/-- C1 counterexample: the status-route deriver ignores gateway
reachability.  With a status snapshot saying the gateway is unreachable
and a health snapshot whose single channel probes healthy, the derived
health is `healthy`, not `unhealthy`. -/
theorem c1_unreachable_counterexample :
    (statusBuildStatus sdUnreachable hdOneOk).gatewayReachable = false ∧
    (statusBuildStatus sdUnreachable hdOneOk).health = Health.healthy ∧
    Health.healthy ≠ Health.unhealthy :=
  ⟨rfl, rfl, by decide⟩

/-- C1 (amended): the daily-route deriver returns `unhealthy` whenever the
gateway is not reachable, regardless of channel state; the status-route
deriver's health does not depend on the status snapshot at all (so gateway
reachability never influences it) — it is derived from the health snapshot
alone. -/
theorem c1_unreachable_amended :
    (∀ sd : Option StatusData,
      (dailyBuildStatus sd).gatewayReachable = false →
        (dailyBuildStatus sd).health = Health.unhealthy) ∧
    (∀ (sd₁ sd₂ : Option StatusData) (hd : Option HealthData),
      (statusBuildStatus sd₁ hd).health = (statusBuildStatus sd₂ hd).health) := by
  constructor
  · intro sd h
    simp only [dailyBuildStatus] at h ⊢
    simp [h]
  · intro sd₁ sd₂ hd
    rfl

/-- C1 amended witness at a concrete unreachable snapshot. -/
theorem c1_unreachable_amended_witness :
    (dailyBuildStatus sdUnreachableWithChannel).health = Health.unhealthy :=
  c1_unreachable_amended.1 sdUnreachableWithChannel (by decide)

/-- C2 counterexample: gateway reachable, the only *configured* channel
("a") probes healthy, yet the status route reports `degraded`, because its
all/any tests range over every channel of the snapshot — including the
unconfigured "b" whose probe fails — not only the configured ones. -/
theorem c2_configured_counterexample :
    (statusBuildStatus sdReachable (some hdMixed)).gatewayReachable = true ∧
    configuredOf (hdMixed.channels.getD []) "a" = true ∧
    probeOkOf (hdMixed.channels.getD []) "a" = true ∧
    configuredOf (hdMixed.channels.getD []) "b" = false ∧
    (statusBuildStatus sdReachable (some hdMixed)).health = Health.degraded ∧
    Health.degraded ≠ Health.healthy :=
  ⟨rfl, rfl, rfl, rfl, rfl, by decide⟩

/-- C2 (amended): in the status route, when at least one channel probe is
healthy, health is `healthy` exactly when *every channel present in the
health snapshot* (configured or not) probes healthy, and `degraded` when
some but not all do — gateway reachability plays no role there.  In the
daily-route deriver, with the gateway reachable, health is `healthy`
exactly when at least one *configured* channel is parsed from the channel
summary (probes play no role there). -/
theorem c2_probe_health_amended :
    (∀ (sd : Option StatusData) (hd : HealthData),
      (∃ name ∈ (hd.channels.getD []).map Prod.fst,
        probeOkOf (hd.channels.getD []) name = true) →
      (((statusBuildStatus sd (some hd)).health = Health.healthy ↔
          ∀ name ∈ (hd.channels.getD []).map Prod.fst,
            probeOkOf (hd.channels.getD []) name = true) ∧
        ((∃ name ∈ (hd.channels.getD []).map Prod.fst,
            probeOkOf (hd.channels.getD []) name = false) →
          (statusBuildStatus sd (some hd)).health = Health.degraded))) ∧
    (∀ sd : Option StatusData,
      (dailyBuildStatus sd).gatewayReachable = true →
        ((dailyBuildStatus sd).health = Health.healthy ↔
          0 < (dailyBuildStatus sd).activeChannels.length)) := by
  constructor
  · intro sd hd hany
    have hanyb : (parseHealth (some hd)).anyProbeOk = true := (parseHealth_any hd).2 hany
    obtain ⟨w, hw, _⟩ := hany
    have hne : (hd.channels.getD []).map Prod.fst ≠ [] := List.ne_nil_of_mem hw
    constructor
    · rw [statusBuildStatus_health]
      unfold deriveHealth
      by_cases hall : (parseHealth (some hd)).allProbesOk = true
      · rw [if_pos hall]
        exact ⟨fun _ => ((parseHealth_all hd).1 hall).2, fun _ => rfl⟩
      · rw [if_neg hall, if_pos hanyb]
        constructor
        · intro h
          exact absurd h (by decide)
        · intro hforall
          exact absurd ((parseHealth_all hd).2 ⟨hne, hforall⟩) hall
    · rintro ⟨w2, hw2, hwp2⟩
      rw [statusBuildStatus_health]
      unfold deriveHealth
      have hall : ¬ (parseHealth (some hd)).allProbesOk = true := by
        intro hall
        have := ((parseHealth_all hd).1 hall).2 w2 hw2
        rw [this] at hwp2
        exact absurd hwp2 (by decide)
      rw [if_neg hall, if_pos hanyb]
  · intro sd h
    simp only [dailyBuildStatus] at h ⊢
    simp only [h]
    by_cases h2 :
        0 < (parseChannelSummary ((sd.bind (fun s => s.channelSummary)).getD [])).length <;>
      simp [h2]

/-- C2 amended witness: one healthy probe and all channels healthy makes
the status route report `healthy`; a reachable gateway with a configured
channel makes the daily route report `healthy`. -/
theorem c2_probe_health_amended_witness :
    (statusBuildStatus none (some { channels := some [("a", chanOk)] })).health =
      Health.healthy ∧
    (dailyBuildStatus sdReachableWithChannel).health = Health.healthy := by
  constructor
  · exact ((c2_probe_health_amended.1 none { channels := some [("a", chanOk)] }
      ⟨"a", by decide, by decide⟩).1).2 (by decide)
  · exact (c2_probe_health_amended.2 sdReachableWithChannel (by decide)).2 (by decide)

/-! ## C3: the cached status handler -/

/-- A previously cached view, distinct from the null-snapshot derivation. -/
def c3PrevView : StatusView :=
  { version := "1.0.0", health := Health.healthy, activeChannels := ["telegram"],
    gatewayReachable := true }

/-- C3 counterexample.  First part: with an expired cache entry and both
fetches returning `null`, the handler does *not* return the previous entry
with `stale = true` — it derives a fresh default view from the null
snapshots, returns it unflagged, and overwrites the cache.  Second part:
with no previous entry and the try block failing, the handler returns a
500 error body, not `(data: null, stale: true)`. -/
theorem c3_null_fetch_counterexample :
    statusGET (some { data := c3PrevView, ts := 0 }) 30000 (.ok none none) =
      (.json (statusBuildStatus none none) false false,
        some { data := statusBuildStatus none none, ts := 30000 }) ∧
    statusBuildStatus none none ≠ c3PrevView ∧
    statusGET none 0 .throws = (.error 500, none) := by
  decide

/-- C3 (amended): a *throw* of the try block with a previous cached entry
returns that entry flagged `cached` and `stale`; a throw with no previous
entry yields a 500 error response.  A bridge invocation that merely
returns `null` is not a failure for the handler: the view is derived from
the null snapshots, returned without flags, and cached fresh. -/
theorem c3_cache_fallback_amended :
    (∀ (c : StatusCacheEntry) (now : Nat),
      statusCacheFresh (some c) now = false →
        statusGET (some c) now .throws = (.json c.data true true, some c)) ∧
    (∀ now : Nat, statusGET none now .throws = (.error 500, none)) ∧
    (∀ (cache : Option StatusCacheEntry) (now : Nat) (sd : Option StatusData)
        (hd : Option HealthData),
      statusCacheFresh cache now = false →
        statusGET cache now (.ok sd hd) =
          (.json (statusBuildStatus sd hd) false false,
            some { data := statusBuildStatus sd hd, ts := now })) := by
  refine ⟨?_, ?_, ?_⟩
  · intro c now h
    simp only [statusCacheFresh, decide_eq_false_iff_not] at h
    simp [statusGET, statusTryBody, h]
  · intro now
    rfl
  · intro cache now sd hd h
    cases cache with
    | none => rfl
    | some c =>
      simp only [statusCacheFresh, decide_eq_false_iff_not] at h
      simp [statusGET, statusTryBody, h]

/-- C3 amended witness: expired entry plus a throw serves the stale entry. -/
theorem c3_cache_fallback_amended_witness :
    statusGET (some { data := c3PrevView, ts := 0 }) 30000 .throws =
      (.json c3PrevView true true, some { data := c3PrevView, ts := 0 }) :=
  c3_cache_fallback_amended.1 { data := c3PrevView, ts := 0 } 30000 (by decide)

/-! ## C6: the process bridge -/

theorem dropWhile_append_of_all {p : Char → Bool} :
    ∀ l₁ l₂ : List Char, (∀ c ∈ l₁, p c = true) →
      List.dropWhile p (l₁ ++ l₂) = List.dropWhile p l₂ := by
  intro l₁ l₂ h
  induction l₁ with
  | nil => rfl
  | cons c rest ih =>
    rw [List.cons_append, List.dropWhile_cons, if_pos (h c (by simp))]
    exact ih (fun d hd => h d (by simp [hd]))

/-- An output with diagnostic preamble before the JSON payload. -/
def preambleOut : String := "doctor warning\n\x7b\"ok\":true\x7d"

/-- C6 counterexample: on the same captured output, `execJSON` (activity
route) returns `null` because it parses the trimmed output as a whole and
the preamble makes that fail, while `runCLI` — which does locate the first
brace — parses the payload.  So not every bridge invocation discards the
preamble. -/
theorem c6_preamble_counterexample :
    execJSONModel (.success preambleOut) = none ∧
    runCLIModel (.success preambleOut) = some (JValue.obj [("ok", JValue.bool true)]) :=
  ⟨rfl, rfl⟩

/-- C6 (amended): `runCLI` discards any brace-free preamble (prepending
one never changes its result), both bridges return `null` — never an
exception — on process failure, and `runCLI` returns `null` when no brace
occurs at all.  `execJSON`, by contrast, parses the whole trimmed output,
so a preamble before the payload yields `null` rather than the payload
(see the counterexample). -/
theorem c6_bridge_amended :
    (∀ p out : String, (∀ c ∈ p.toList, c ≠ lbraceChar) →
      runCLIModel (.success (p ++ out)) = runCLIModel (.success out)) ∧
    runCLIModel .failure = none ∧
    execJSONModel .failure = none ∧
    (∀ out : String, (∀ c ∈ out.toList, c ≠ lbraceChar) →
      runCLIModel (.success out) = none) := by
  refine ⟨?_, rfl, rfl, ?_⟩
  · intro p out h
    have hdata : (p ++ out).toList = p.toList ++ out.toList := String.data_append p out
    simp only [runCLIModel, hdata]
    rw [dropWhile_append_of_all p.toList out.toList (fun c hc => by simp [h c hc])]
  · intro out h
    have hnil : out.toList.dropWhile (fun c => c ≠ lbraceChar) = [] :=
      List.dropWhile_eq_nil_iff.2 (fun c hc => by simp [h c hc])
    show (if (out.toList.dropWhile (fun c => c ≠ lbraceChar)).isEmpty then none
          else jsonParseList (out.toList.dropWhile (fun c => c ≠ lbraceChar))) = none
    rw [hnil]
    rfl

/-- C6 amended witness: prepending a brace-free preamble to a payload does
not change the `runCLI` result. -/
theorem c6_bridge_amended_witness :
    runCLIModel (.success ("warning " ++ "\x7b\x7d")) = runCLIModel (.success "\x7b\x7d") ∧
    runCLIModel (.success "\x7b\x7d") = some (JValue.obj []) :=
  ⟨c6_bridge_amended.1 "warning " "\x7b\x7d" (by decide), rfl⟩

/-! ## Sorting and dedup facts for the activity feed -/

theorem mem_insertDesc (x a : ActivityEntry) :
    ∀ l, a ∈ insertDesc x l ↔ a = x ∨ a ∈ l
  | [] => by simp [insertDesc]
  | y :: ys => by
    by_cases h : y.timestampMs ≤ x.timestampMs
    · simp only [insertDesc, if_pos h, List.mem_cons]
    · simp only [insertDesc, if_neg h, List.mem_cons, mem_insertDesc x a ys]
      tauto

theorem insertDesc_pairwise (x : ActivityEntry) :
    ∀ l, l.Pairwise (fun a b => b.timestampMs ≤ a.timestampMs) →
      (insertDesc x l).Pairwise (fun a b => b.timestampMs ≤ a.timestampMs)
  | [], _ => by simp [insertDesc]
  | y :: ys, hl => by
    rw [List.pairwise_cons] at hl
    by_cases h : y.timestampMs ≤ x.timestampMs
    · rw [insertDesc, if_pos h, List.pairwise_cons]
      refine ⟨?_, List.pairwise_cons.2 hl⟩
      intro b hb
      rcases List.mem_cons.1 hb with hby | hbys
      · exact hby ▸ h
      · exact le_trans (hl.1 b hbys) h
    · rw [insertDesc, if_neg h, List.pairwise_cons]
      refine ⟨?_, insertDesc_pairwise x ys hl.2⟩
      intro b hb
      rcases (mem_insertDesc x b ys).1 hb with rfl | hbys
      · exact le_of_lt (lt_of_not_le h)
      · exact hl.1 b hbys

theorem sortDesc_pairwise :
    ∀ l, (sortDesc l).Pairwise (fun a b => b.timestampMs ≤ a.timestampMs)
  | [] => List.Pairwise.nil
  | x :: l => insertDesc_pairwise x (sortDesc l) (sortDesc_pairwise l)

theorem insertDesc_const (x : ActivityEntry) (t : Nat) (hx : x.timestampMs = t) :
    ∀ l, (∀ e ∈ l, e.timestampMs = t) → insertDesc x l = x :: l
  | [], _ => rfl
  | y :: ys, hl => by
    rw [insertDesc, if_pos]
    rw [hx, hl y (by simp)]

theorem sortDesc_const (t : Nat) :
    ∀ l, (∀ e ∈ (l : List ActivityEntry), e.timestampMs = t) → sortDesc l = l
  | [], _ => rfl
  | x :: l, hl => by
    show insertDesc x (sortDesc l) = x :: l
    have hrec : sortDesc l = l := sortDesc_const t l (fun e he => hl e (by simp [he]))
    rw [hrec, insertDesc_const x t (hl x (by simp)) l (fun e he => hl e (by simp [he]))]

theorem dedupeGo_sublist : ∀ (l : List ActivityEntry) (seen : List String),
    List.Sublist (dedupeGo seen l) l
  | [], _ => List.Sublist.refl []
  | e :: es, seen => by
    rw [dedupeGo]
    by_cases h : e.id ∈ seen
    · rw [if_pos h]
      exact List.Sublist.cons e (dedupeGo_sublist es seen)
    · rw [if_neg h]
      exact List.Sublist.cons₂ e (dedupeGo_sublist es (e.id :: seen))

theorem dedupeGo_ids : ∀ (l : List ActivityEntry) (seen : List String),
    ((dedupeGo seen l).map (fun e => e.id)).Nodup ∧
      ∀ e ∈ dedupeGo seen l, e.id ∉ seen
  | [], _ => by simp [dedupeGo]
  | e :: es, seen => by
    rw [dedupeGo]
    by_cases h : e.id ∈ seen
    · rw [if_pos h]
      exact dedupeGo_ids es seen
    · rw [if_neg h]
      have ih := dedupeGo_ids es (e.id :: seen)
      constructor
      · rw [List.map_cons, List.nodup_cons]
        refine ⟨?_, ih.1⟩
        intro hmem
        rcases List.mem_map.1 hmem with ⟨e2, he2, hid⟩
        exact ih.2 e2 he2 (by rw [hid]; exact List.mem_cons_self _ _)
      · intro e2 he2
        rcases List.mem_cons.1 he2 with rfl | he2es
        · exact h
        · intro hseen
          exact ih.2 e2 he2es (List.mem_cons_of_mem _ hseen)

theorem dedupeGo_eq_self : ∀ (l : List ActivityEntry) (seen : List String),
    (l.map (fun e => e.id)).Nodup → (∀ e ∈ l, e.id ∉ seen) → dedupeGo seen l = l
  | [], _, _, _ => rfl
  | e :: es, seen, hnd, hout => by
    rw [dedupeGo, if_neg (hout e (by simp))]
    rw [List.map_cons, List.nodup_cons] at hnd
    congr 1
    apply dedupeGo_eq_self es (e.id :: seen) hnd.2
    intro e2 he2 hmem
    rcases List.mem_cons.1 hmem with hid | hseen
    · exact hnd.1 (List.mem_map.2 ⟨e2, he2, hid⟩)
    · exact hout e2 (List.mem_cons_of_mem _ he2) hseen

theorem sessionEntry_timestamp (r : SessionRec) :
    (sessionEntry r).timestampMs = r.updatedAt := rfl

/-- C4: every normalized feed is sorted by timestamp descending; all ids
in it are distinct; and for the two-record merge scenario with one
derived id and two distinct timestamps, exactly one entry survives —
the one carrying the later timestamp (sort-then-dedupe keeps the first
post-sort occurrence). -/
theorem c4_normalizer_sorted_dedup :
    (∀ (sessions : List SessionRec) (cronJobs : List CronRec)
        (memoryContent : Option String) (today : String) (nowMs : Nat),
      (normalizeActivity sessions cronJobs memoryContent today nowMs).Pairwise
        (fun a b => b.timestampMs ≤ a.timestampMs)) ∧
    (∀ (sessions : List SessionRec) (cronJobs : List CronRec)
        (memoryContent : Option String) (today : String) (nowMs : Nat),
      ((normalizeActivity sessions cronJobs memoryContent today nowMs).map
        (fun e => e.id)).Nodup) ∧
    (∀ (r₁ r₂ : SessionRec) (today : String) (nowMs : Nat),
      (sessionEntry r₁).id = (sessionEntry r₂).id →
      r₁.updatedAt ≠ r₂.updatedAt →
      normalizeActivity [r₁, r₂] [] none today nowMs =
        [if r₂.updatedAt ≤ r₁.updatedAt then sessionEntry r₁ else sessionEntry r₂] ∧
      (if r₂.updatedAt ≤ r₁.updatedAt then sessionEntry r₁ else sessionEntry r₂).timestampMs =
        max r₁.updatedAt r₂.updatedAt) := by
  refine ⟨?_, ?_, ?_⟩
  · intro sessions cronJobs memoryContent today nowMs
    exact List.Pairwise.sublist (dedupeGo_sublist _ _) (sortDesc_pairwise _)
  · intro sessions cronJobs memoryContent today nowMs
    exact (dedupeGo_ids _ _).1
  · intro r₁ r₂ today nowMs hid hne
    have hfeed : normalizeActivity [r₁, r₂] [] none today nowMs =
        dedupeById (sortDesc [sessionEntry r₁, sessionEntry r₂]) := by
      simp [normalizeActivity, memoryEntries]
    have hsort : sortDesc [sessionEntry r₁, sessionEntry r₂] =
        if r₂.updatedAt ≤ r₁.updatedAt then [sessionEntry r₁, sessionEntry r₂]
        else [sessionEntry r₂, sessionEntry r₁] := by
      show insertDesc (sessionEntry r₁) (insertDesc (sessionEntry r₂) []) = _
      rfl
    by_cases hle : r₂.updatedAt ≤ r₁.updatedAt
    · refine ⟨?_, ?_⟩
      · rw [hfeed, hsort, if_pos hle, if_pos hle]
        simp [dedupeById, dedupeGo, hid]
      · rw [if_pos hle, sessionEntry_timestamp, Nat.max_eq_left hle]
    · refine ⟨?_, ?_⟩
      · rw [hfeed, hsort, if_neg hle, if_neg hle]
        simp [dedupeById, dedupeGo, hid]
      · rw [if_neg hle, sessionEntry_timestamp]
        have := Nat.le_of_not_le hle
        omega

/-- Two session records sharing a derived id with distinct timestamps. -/
def wSess1 : SessionRec :=
  { key := "agent:main:main", kind := "main", updatedAt := 1000, sessionId := "s1" }

/-- The later of the two records. -/
def wSess2 : SessionRec :=
  { key := "agent:main:main", kind := "main", updatedAt := 2000, sessionId := "s1" }

/-- C4 witness: merging the two records keeps exactly the later one. -/
theorem c4_normalizer_sorted_dedup_witness :
    normalizeActivity [wSess1, wSess2] [] none "2026-02-18" 0 = [sessionEntry wSess2] ∧
    (sessionEntry wSess2).timestampMs = 2000 := by
  have h := c4_normalizer_sorted_dedup.2.2 wSess1 wSess2 "2026-02-18" 0 (by decide) (by decide)
  have hcond : ¬ (wSess2.updatedAt ≤ wSess1.updatedAt) := by decide
  exact ⟨by rw [h.1, if_neg hcond], rfl⟩

/-! ## C8: memory headings -/

theorem string_append_left_cancel (s a b : String) (h : s ++ a = s ++ b) : a = b := by
  have hd : s.data ++ a.data = s.data ++ b.data := by
    rw [← String.data_append, ← String.data_append, h]
  have hab := List.append_cancel_left hd
  cases a
  cases b
  exact congrArg String.mk hab

theorem natRepr_inj_lt5 (i j : Nat) (hi : i < 5) (hj : j < 5)
    (h : Nat.repr i = Nat.repr j) : i = j := by
  interval_cases i <;> interval_cases j <;> first | rfl | exact absurd h (by decide)

theorem memoryEntries_length (content today : String) (nowMs : Nat) :
    (memoryEntries (some content) today nowMs).length =
      min (memoryHeadings content).length 5 := by
  simp [memoryEntries]

theorem memoryEntries_fields (content today : String) (nowMs : Nat) :
    ∀ e ∈ memoryEntries (some content) today nowMs,
      e.type = ActivityType.memory ∧ e.timestampMs = nowMs := by
  intro e he
  simp only [memoryEntries, List.mem_map] at he
  obtain ⟨i, _, rfl⟩ := he
  exact ⟨rfl, rfl⟩

theorem memoryEntries_ids_nodup (content today : String) (nowMs : Nat) :
    ((memoryEntries (some content) today nowMs).map (fun e => e.id)).Nodup := by
  rw [memoryEntries]
  rw [List.map_map]
  apply List.Nodup.map_on _ (List.nodup_range _)
  intro x hx y hy h
  rw [List.mem_range] at hx hy
  have hx5 : x < 5 := lt_of_lt_of_le hx (min_le_right _ _)
  have hy5 : y < 5 := lt_of_lt_of_le hy (min_le_right _ _)
  exact natRepr_inj_lt5 x y hx5 hy5
    (string_append_left_cancel ("mem_" ++ today ++ "_") _ _ h)

/-- C8 counterexample: a note with six section-title headings produces
only five `memory` entries — the sixth heading has none — so not *every*
heading becomes an entry. -/
theorem c8_cap_counterexample :
    (memoryHeadings "## a\n## b\n## c\n## d\n## e\n## f").length = 6 ∧
    (memoryEntries (some "## a\n## b\n## c\n## d\n## e\n## f") "2026-02-18" 0).length = 5 ∧
    (normalizeActivity [] [] (some "## a\n## b\n## c\n## d\n## e\n## f") "2026-02-18" 0).length
      = 5 := by
  decide

/-- C8 (amended): each of the *first five* section-title headings of the
current day's note becomes exactly one `memory`-type entry with the
synthesized "now" timestamp (entry `i` carries heading `i` stripped of its
hash prefix); headings beyond the fifth are dropped.  With only memory
input the normalized feed is exactly these entries, in order. -/
theorem c8_memory_entries_amended :
    ∀ (content today : String) (nowMs : Nat),
      (memoryEntries (some content) today nowMs).length =
        min (memoryHeadings content).length 5 ∧
      (∀ e ∈ memoryEntries (some content) today nowMs,
        e.type = ActivityType.memory ∧ e.timestampMs = nowMs) ∧
      (∀ i, i < min (memoryHeadings content).length 5 →
        ((memoryEntries (some content) today nowMs).get? i).map (fun e => e.summary) =
          some ("Memory: " ++ stripHeading (((memoryHeadings content).get? i).getD ""))) ∧
      normalizeActivity [] [] (some content) today nowMs =
        memoryEntries (some content) today nowMs := by
  intro content today nowMs
  refine ⟨memoryEntries_length content today nowMs, memoryEntries_fields content today nowMs,
    ?_, ?_⟩
  · intro i hi
    rw [memoryEntries]
    rw [List.get?_map, List.get?_range hi]
    rfl
  · have hfeed : normalizeActivity [] [] (some content) today nowMs =
        dedupeById (sortDesc (memoryEntries (some content) today nowMs)) := by
      simp [normalizeActivity]
    rw [hfeed,
      sortDesc_const nowMs _ (fun e he => (memoryEntries_fields content today nowMs e he).2)]
    exact dedupeGo_eq_self _ [] (memoryEntries_ids_nodup content today nowMs)
      (fun e _ h => by simp at h)

/-- C8 amended witness at a concrete two-heading note. -/
theorem c8_memory_entries_amended_witness :
    (memoryEntries (some "## a\n### b") "2026-02-18" 7).length = 2 ∧
    ((memoryEntries (some "## a\n### b") "2026-02-18" 7).get? 0).map (fun e => e.summary) =
      some "Memory: a" := by
  have h := c8_memory_entries_amended "## a\n### b" "2026-02-18" 7
  exact ⟨(h.1).trans (by decide), (h.2.2.1 0 (by decide)).trans (by decide)⟩

/-! ## C7: query filtering and pagination -/

/-- Spec-side predicate: does `e` pass the type filter? -/
def typePredQ (t : Option String) (e : ActivityEntry) : Bool :=
  match t with
  | some s => if s = "" then true else decide (activityTypeStr e.type = s)
  | none => true

/-- Spec-side predicate: does `e` pass the channel filter? -/
def channelPredQ (c : Option String) (e : ActivityEntry) : Bool :=
  match c with
  | some s => if s = "" then true else decide (channelTypeStr e.channel = s)
  | none => true

/-- Spec-side predicate: does `e` pass the search filter? -/
def searchPredQ (q : Option String) (e : ActivityEntry) : Bool :=
  match q.map lowerStr with
  | some s => if s = "" then true else searchMatch s e
  | none => true

/-- The conjunctive query predicate of the spec: type AND channel AND
search match. -/
def queryPredQ (t c q : Option String) (e : ActivityEntry) : Bool :=
  typePredQ t e && channelPredQ c e && searchPredQ q e

theorem filterType_eq (t : Option String) (l : List ActivityEntry) :
    filterType t l = l.filter (typePredQ t) := by
  cases t with
  | none => exact (List.filter_eq_self.2 (fun a _ => rfl)).symm
  | some s =>
    by_cases h : s = ""
    · subst h
      simp only [filterType, if_pos rfl]
      exact (List.filter_eq_self.2 (fun a _ => rfl)).symm
    · simp only [filterType, if_neg h]
      apply List.filter_congr
      intro e _
      simp [typePredQ, h]

theorem filterChannel_eq (c : Option String) (l : List ActivityEntry) :
    filterChannel c l = l.filter (channelPredQ c) := by
  cases c with
  | none => exact (List.filter_eq_self.2 (fun a _ => rfl)).symm
  | some s =>
    by_cases h : s = ""
    · subst h
      simp only [filterChannel, if_pos rfl]
      exact (List.filter_eq_self.2 (fun a _ => rfl)).symm
    · simp only [filterChannel, if_neg h]
      apply List.filter_congr
      intro e _
      simp [channelPredQ, h]

theorem filterSearch_eq (q : Option String) (l : List ActivityEntry) :
    filterSearch q l = l.filter (searchPredQ q) := by
  cases q with
  | none => exact (List.filter_eq_self.2 (fun a _ => rfl)).symm
  | some s =>
    show (if lowerStr s = "" then l else List.filter (searchMatch (lowerStr s)) l) =
      l.filter (searchPredQ (some s))
    by_cases h : lowerStr s = ""
    · rw [if_pos h]
      refine (List.filter_eq_self.2 (fun a _ => ?_)).symm
      simp [searchPredQ, h]
    · rw [if_neg h]
      apply List.filter_congr
      intro e _
      simp [searchPredQ, h]

theorem filtered_eq (t c q : Option String) (l : List ActivityEntry) :
    filterSearch q (filterChannel c (filterType t l)) = l.filter (queryPredQ t c q) := by
  rw [filterType_eq, filterChannel_eq, filterSearch_eq, List.filter_filter,
    List.filter_filter]
  apply List.filter_congr
  intro e _
  simp [queryPredQ, Bool.and_comm, Bool.and_assoc, Bool.and_left_comm]

/-- C7: for the activity query with 1-indexed `page ≥ 1` and positive
`pageSize`, the returned page has at most `pageSize` items, `hasMore`
holds exactly when `page * pageSize < total`, `total` counts the entries
passing the conjunctive type-and-channel-and-search predicate, and a
non-empty type filter only ever returns entries of that type. -/
theorem c7_query_pagination :
    ∀ (entries : List ActivityEntry) (type channel search : Option String)
      (page pageSize : Nat), 1 ≤ page → 1 ≤ pageSize →
      ((activityGET entries type channel search page pageSize).items.length ≤ pageSize ∧
        ((activityGET entries type channel search page pageSize).hasMore = true ↔
          page * pageSize < (activityGET entries type channel search page pageSize).total) ∧
        (activityGET entries type channel search page pageSize).total =
          (entries.filter (queryPredQ type channel search)).length ∧
        (∀ t, type = some t → t ≠ "" →
          ∀ e ∈ (activityGET entries type channel search page pageSize).items,
            activityTypeStr e.type = t)) := by
  intro entries type channel search page pageSize hp _
  obtain ⟨p, rfl⟩ : ∃ p, page = p + 1 := ⟨page - 1, by omega⟩
  refine ⟨?_, ?_, ?_, ?_⟩
  · simp [activityGET]
  · have harith : (p + 1 - 1) * pageSize + pageSize = (p + 1) * pageSize := by
      rw [Nat.add_sub_cancel]
      ring
    simp only [activityGET, harith, decide_eq_true_eq]
  · simp only [activityGET, filtered_eq]
  · intro t htype hne e he
    simp only [activityGET] at he
    have hef : e ∈ filterSearch search (filterChannel channel (filterType type entries)) :=
      List.mem_of_mem_drop (List.mem_of_mem_take he)
    rw [filtered_eq] at hef
    have hq := List.of_mem_filter hef
    rw [htype] at hq
    simp only [queryPredQ, typePredQ, Bool.and_eq_true] at hq
    have := hq.1.1
    rw [if_neg hne] at this
    exact of_decide_eq_true this

/-- C7 witness at a concrete one-entry feed with a type filter. -/
theorem c7_query_pagination_witness :
    (activityGET [sessionEntry wSess1] (some "message") none none 1 1).items.length ≤ 1 ∧
    ((activityGET [sessionEntry wSess1] (some "message") none none 1 1).hasMore = true ↔
      1 * 1 < (activityGET [sessionEntry wSess1] (some "message") none none 1 1).total) := by
  have h := c7_query_pagination [sessionEntry wSess1] (some "message") none none 1 1
    (by decide) (by decide)
  exact ⟨h.1, h.2.1⟩

/-! ## C9: cron success rate -/

theorem mapCronJob_successRate (j : SysCronJob) :
    (mapCronJob j).successRate = max 0 (100 - (consecutiveErrorsVal j : Int) * 20) := by
  unfold mapCronJob consecutiveErrorsVal
  rcases h : (j.state.getD {}).consecutiveErrors with _ | n
  · simp [h]
  · rcases n with _ | m
    · simp [h]
    · simp [h]

/-- C9: the derived `successRate` is monotonically decreasing in the
consecutive-error count — a job with a higher count never has a higher
rate — and the rate is 100 at zero consecutive errors. -/
theorem c9_success_rate_monotone :
    (∀ j₁ j₂ : SysCronJob, consecutiveErrorsVal j₁ ≤ consecutiveErrorsVal j₂ →
      (mapCronJob j₂).successRate ≤ (mapCronJob j₁).successRate) ∧
    (∀ j : SysCronJob, consecutiveErrorsVal j = 0 →
      (mapCronJob j).successRate = 100) := by
  constructor
  · intro j₁ j₂ h
    rw [mapCronJob_successRate, mapCronJob_successRate]
    have hcast : (consecutiveErrorsVal j₁ : Int) ≤ consecutiveErrorsVal j₂ := by
      exact_mod_cast h
    exact max_le_max (le_refl 0) (by omega)
  · intro j h
    rw [mapCronJob_successRate, h]
    decide

/-- Jobs with one and with three consecutive errors. -/
def cronJobOneErr : SysCronJob :=
  { id := "a", name := "a", enabled := true, state := some { consecutiveErrors := some 1 } }

/-- The three-error job. -/
def cronJobThreeErr : SysCronJob :=
  { id := "b", name := "b", enabled := true, state := some { consecutiveErrors := some 3 } }

/-- C9 witness: three errors rate at most one-error rate; a job with no
state at all has rate 100. -/
theorem c9_success_rate_monotone_witness :
    (mapCronJob cronJobThreeErr).successRate ≤ (mapCronJob cronJobOneErr).successRate ∧
    (mapCronJob { id := "c", name := "c", enabled := true }).successRate = 100 :=
  ⟨c9_success_rate_monotone.1 cronJobOneErr cronJobThreeErr (by decide),
    c9_success_rate_monotone.2 { id := "c", name := "c", enabled := true } (by decide)⟩
